import Mathlib

/-!
Shallow embedding of `src/relay_controller.py` (classes `RelayController` and
`CapRelay`) and proofs about its state-configuration behaviour.

Modelling conventions:
* The `gpiozero.LEDBoard` is modelled as a list of booleans, one per pin,
  `true` meaning the LED/pin is lit (`.on()` was the last call), `false`
  meaning unlit (`.off()`).  LEDs start unlit when the board is constructed.
* Python exceptions are modelled with `Except PyError`; a raise site maps to
  one `PyError` constructor carrying the data interpolated into its message.
* Methods that mutate `self` are modelled by state passing; because a Python
  exception does not roll back mutations already performed, such methods
  return the post-state together with the `Except` result, the post-state
  being meaningful on the error path as well.
-/

/-- One constructor per raise site of `relay_controller.py`, carrying the data
that the source interpolates into the exception message, plus Python's
`AttributeError` for a method call that resolves to no attribute. -/
inductive PyError where
  | relayNumberOutOfRange (num_relays : Nat)
  | configLengthMismatch
  | configPinCountMismatch (config_len : Nat)
  | invalidState (state_name : String)
  | invalidRelayState (value : Int) (position : Nat)
  | attributeError (attr : String)
deriving DecidableEq

/-- Python's `str.lower`, written directly over the character list so that the
kernel can evaluate it on literals; `pyLower_eq_toLower` below shows it agrees
with `String.toLower`. -/
def pyLower (s : String) : String := String.mk (s.data.map Char.toLower)

/-- `RelayController` state: the pin identifiers given at construction, the
relay count `num_relays = len(relay_pins)`, and the lit level of each pin of
the underlying `LEDBoard` (`true` = lit). -/
structure RelayController where
  relay_pins : List Int
  num_relays : Nat
  pins : List Bool
deriving DecidableEq

namespace RelayController

/-- `open_all` (lines 44-50): turns every pin of the board `.on()`. -/
def open_all (c : RelayController) : RelayController :=
  { c with pins := c.pins.map (fun _ => true) }

/-- `close_all` (lines 36-42): turns every pin of the board `.off()`. -/
def close_all (c : RelayController) : RelayController :=
  { c with pins := c.pins.map (fun _ => false) }

/-- `RelayController.__init__` (lines 11-18): records the pins, sets
`num_relays`, builds the board (all LEDs unlit) and calls `open_all`. -/
def init (relay_pins : List Int) : RelayController :=
  open_all
    { relay_pins := relay_pins
      num_relays := relay_pins.length
      pins := List.replicate relay_pins.length false }

/-- `_validate_relay_number` (lines 59-64): raises `ValueError` unless
`0 <= relay_num < num_relays`. -/
def _validate_relay_number (c : RelayController) (relay_num : Int) :
    Except PyError Unit :=
  if 0 ≤ relay_num ∧ relay_num < (c.num_relays : Int) then Except.ok ()
  else Except.error (PyError.relayNumberOutOfRange c.num_relays)

/-- `close` (lines 20-26): validate, then drive pin `relay_num` `.off()`. -/
def close (c : RelayController) (relay_num : Int) :
    Except PyError Unit × RelayController :=
  match c._validate_relay_number relay_num with
  | Except.error e => (Except.error e, c)
  | Except.ok _ => (Except.ok (), { c with pins := c.pins.set relay_num.toNat false })

/-- `open` (lines 28-34): validate, then drive pin `relay_num` `.on()`. -/
def «open» (c : RelayController) (relay_num : Int) :
    Except PyError Unit × RelayController :=
  match c._validate_relay_number relay_num with
  | Except.error e => (Except.error e, c)
  | Except.ok _ => (Except.ok (), { c with pins := c.pins.set relay_num.toNat true })

/-- `get_state` (lines 52-57): validate, then return `not board[i].is_lit`. -/
def get_state (c : RelayController) (relay_num : Int) : Except PyError Bool :=
  match c._validate_relay_number relay_num with
  | Except.error e => Except.error e
  | Except.ok _ => Except.ok (!(c.pins.getD relay_num.toNat false))

/-- The per-relay application loop of `CapRelay.set_state` (lines 112-118),
compiled to a recursion over the remaining configuration entries together with
the index `enumerate` would supply: entry `1` calls `close`, entry `0` calls
`open`, anything else raises `ValueError` naming the value and position.  It
touches only inherited `RelayController` state, so it is stated on it. -/
def apply_config (c : RelayController) (config : List Int) (relay_num : Nat) :
    Except PyError Unit × RelayController :=
  match config with
  | [] => (Except.ok (), c)
  | should_be_closed :: rest =>
    if should_be_closed = 1 then
      match c.close (relay_num : Int) with
      | (Except.error e, c') => (Except.error e, c')
      | (Except.ok _, c') => c'.apply_config rest (relay_num + 1)
    else if should_be_closed = 0 then
      match c.«open» (relay_num : Int) with
      | (Except.error e, c') => (Except.error e, c')
      | (Except.ok _, c') => c'.apply_config rest (relay_num + 1)
    else
      (Except.error (PyError.invalidRelayState should_be_closed relay_num), c)

end RelayController

/-- The shape of the dict built by `CapRelay.get_state_info` (lines 128-133). -/
structure StateInfo where
  current_state : String
  configuration : List Int
  relay_states : List Int
  pins : List Int
deriving DecidableEq

/-- `CapRelay` extends `RelayController` (inheritance in the source) with the
two named configuration vectors, the current state label and the all-zero
`null_state` vector. -/
structure CapRelay extends RelayController where
  chg_config : List Int
  dmp_config : List Int
  current_state : String
  null_state : List Int
deriving DecidableEq

namespace CapRelay

/-- The state-name lookup of `set_state` (lines 102-109): lowercase the name
and select the matching configuration vector, `none` when no branch matches
(the source then raises). -/
def config_of (c : CapRelay) (state_name : String) : Option (List Int) :=
  if pyLower state_name = "charge" then some c.chg_config
  else if pyLower state_name = "dump" then some c.dmp_config
  else if pyLower state_name = "null" then some c.null_state
  else none

/-- `set_state` (lines 97-121): look the name up, apply the configuration
relay by relay in ascending index order, then set
`current_state := state_name.lower()`.  The source is annotated `-> None` and
has no `return` statement, so the value a successful call returns is Python's
`None`: the result slot `Option StateInfo` records that returned value, and on
success it is always `none` (never a snapshot dict). -/
def set_state (c : CapRelay) (state_name : String) :
    Except PyError (Option StateInfo) × CapRelay :=
  match c.config_of state_name with
  | none => (Except.error (PyError.invalidState state_name), c)
  | some config =>
    match c.toRelayController.apply_config config 0 with
    | (Except.error e, rc) => (Except.error e, { c with toRelayController := rc })
    | (Except.ok _, rc) =>
      (Except.ok none,
        { c with toRelayController := rc, current_state := pyLower state_name })

/-- `CapRelay.__init__` (lines 72-95): run the parent constructor (which opens
every relay), check the two length conditions, record the configurations, set
`current_state := "null"`, build `null_state = [0] * len(relay_pins)` and call
`set_state("null")`. -/
def init (relay_pins chg_config dmp_config : List Int) : Except PyError CapRelay :=
  let rc := RelayController.init relay_pins
  if chg_config.length ≠ dmp_config.length then
    Except.error PyError.configLengthMismatch
  else if relay_pins.length ≠ chg_config.length then
    Except.error (PyError.configPinCountMismatch chg_config.length)
  else
    let c : CapRelay :=
      { toRelayController := rc
        chg_config := chg_config
        dmp_config := dmp_config
        current_state := "null"
        null_state := List.replicate relay_pins.length 0 }
    match c.set_state "null" with
    | (Except.error e, _) => Except.error e
    | (Except.ok _, c') => Except.ok c'

/-- `get_state_config` is called by `get_state_info` (line 130) but is defined
nowhere in the repository (neither class has such a method); Python resolves
the attribute at call time and raises `AttributeError`. -/
def get_state_config (_c : CapRelay) : Except PyError (List Int) :=
  Except.error (PyError.attributeError "get_state_config")

/-- `get_state_info` (lines 123-133): builds the state dict; evaluating the
`"configuration"` entry calls the undefined `get_state_config` before any
relay state is read. -/
def get_state_info (c : CapRelay) : Except PyError StateInfo := do
  let config ← c.get_state_config
  let relay_states ← (List.range c.num_relays).mapM (fun i => do
    let b ← c.toRelayController.get_state (i : Int)
    pure (if b then (1 : Int) else 0))
  pure
    { current_state := c.current_state
      configuration := config
      relay_states := relay_states
      pins := c.relay_pins }

/-- The inherited `get_state`, as called on a `CapRelay` instance. -/
def get_state (c : CapRelay) (relay_num : Int) : Except PyError Bool :=
  c.toRelayController.get_state relay_num

/-- The inherited `close_all`, as called on a `CapRelay` instance: it touches
only the board, never `current_state`. -/
def close_all (c : CapRelay) : CapRelay :=
  { c with toRelayController := c.toRelayController.close_all }

end CapRelay

/-- The controller value built by `src/test.py`,
`CapRelay([22, 23, 24, 25], [1, 1, 0, 0], [0, 0, 1, 1])`:
construction opens all four relays and applies the null state. -/
def demoRelay : CapRelay :=
  { relay_pins := [22, 23, 24, 25]
    num_relays := 4
    pins := [true, true, true, true]
    chg_config := [1, 1, 0, 0]
    dmp_config := [0, 0, 1, 1]
    current_state := "null"
    null_state := [0, 0, 0, 0] }

/-- The controller of `src/test.py` after `relay.set_state("charge")`:
relays 0 and 1 closed (pins unlit), relays 2 and 3 open (pins lit). -/
def demoCharge : CapRelay :=
  { relay_pins := [22, 23, 24, 25]
    num_relays := 4
    pins := [false, false, true, true]
    chg_config := [1, 1, 0, 0]
    dmp_config := [0, 0, 1, 1]
    current_state := "charge"
    null_state := [0, 0, 0, 0] }

/-- A freshly constructed two-relay controller whose charge configuration
carries the out-of-domain entry `2` at position 1; used to exhibit a
`set_state` that fails partway through. -/
def badChargeRelay : CapRelay :=
  { relay_pins := [22, 23]
    num_relays := 2
    pins := [true, true]
    chg_config := [1, 2]
    dmp_config := [0, 0]
    current_state := "null"
    null_state := [0, 0] }

/-- Sanity: `pyLower` is `String.toLower`. -/
theorem pyLower_eq_toLower (s : String) : pyLower s = s.toLower :=
  (String.map_eq Char.toLower s).symm

/-- Equality of `Except` results is decidable; used to evaluate the embedded
operations on concrete inputs. -/
instance {ε α : Type} [DecidableEq ε] [DecidableEq α] : DecidableEq (Except ε α) :=
  fun a b =>
    match a, b with
    | Except.ok x, Except.ok y =>
      if h : x = y then isTrue (by rw [h]) else isFalse (by simp [h])
    | Except.error x, Except.error y =>
      if h : x = y then isTrue (by rw [h]) else isFalse (by simp [h])
    | Except.ok _, Except.error _ => isFalse (by simp)
    | Except.error _, Except.ok _ => isFalse (by simp)

/-- Sanity: the construction in `src/test.py` produces `demoRelay`. -/
theorem init_demoRelay :
    CapRelay.init [22, 23, 24, 25] [1, 1, 0, 0] [0, 0, 1, 1] = Except.ok demoRelay := by
  decide

theorem getD_set_self {α : Type} (l : List α) (i : Nat) (b d : α) (h : i < l.length) :
    (l.set i b).getD i d = b := by
  simp [List.getD, List.getElem?_set_eq_of_lt b h]

theorem getD_set_ne {α : Type} (l : List α) (i j : Nat) (b d : α) (h : i ≠ j) :
    (l.set i b).getD j d = l.getD j d := by
  simp [List.getD, List.getElem?_set_ne h]

theorem getD_replicate {n p : Nat} (a d : Int) (h : p < n) :
    (List.replicate n a).getD p d = a := by
  simp [List.getD, List.getElem?_replicate, h]

namespace RelayController

/-- `_validate_relay_number` succeeds on an in-range `Nat` index. -/
theorem validate_ok (c : RelayController) (i : Nat) (h : i < c.num_relays) :
    c._validate_relay_number (i : Int) = Except.ok () := by
  rw [_validate_relay_number, if_pos]
  exact ⟨Int.ofNat_nonneg i, by exact_mod_cast h⟩

/-- `close` on an in-range `Nat` index: success, pin `i` driven unlit. -/
theorem close_ok (c : RelayController) (i : Nat) (h : i < c.num_relays) :
    c.close (i : Int) = (Except.ok (), { c with pins := c.pins.set i false }) := by
  rw [close, validate_ok c i h]
  simp

/-- `open` on an in-range `Nat` index: success, pin `i` driven lit. -/
theorem open_ok (c : RelayController) (i : Nat) (h : i < c.num_relays) :
    c.«open» (i : Int) = (Except.ok (), { c with pins := c.pins.set i true }) := by
  rw [«open», validate_ok c i h]
  simp

/-- Full characterisation of a successful run of the `set_state` loop: every
entry of `config` is in `{0,1}` and every index it will touch is in range, so
the loop succeeds, leaves the identification fields alone, drives pin
`idx + p` lit exactly when entry `p` is `0`, and leaves all other pins as they
were. -/
theorem apply_config_ok (config : List Int) : ∀ (idx : Nat) (c : RelayController),
    c.pins.length = c.num_relays →
    (∀ p, p < config.length → config.getD p 0 = 0 ∨ config.getD p 0 = 1) →
    idx + config.length ≤ c.num_relays →
    ∃ c', c.apply_config config idx = (Except.ok (), c') ∧
      c'.relay_pins = c.relay_pins ∧ c'.num_relays = c.num_relays ∧
      c'.pins.length = c.pins.length ∧
      (∀ p, p < config.length →
        c'.pins.getD (idx + p) false = decide (config.getD p 0 = 0)) ∧
      (∀ j, j < idx ∨ idx + config.length ≤ j →
        c'.pins.getD j false = c.pins.getD j false) := by
  induction config with
  | nil =>
    intro idx c hlen _ _
    exact ⟨c, rfl, rfl, rfl, rfl, fun p hp => absurd hp (Nat.not_lt_zero p),
      fun j _ => rfl⟩
  | cons v rest ih =>
    intro idx c hlen hdom hrange
    have hidx : idx < c.num_relays := by
      have := hrange
      simp [List.length_cons] at this
      omega
    have hv : v = 0 ∨ v = 1 := by
      have := hdom 0 (by simp)
      simpa using this
    -- the board after the step at index `idx`
    rcases hv with hv | hv
    · -- entry 0: open the relay
      subst hv
      have hstep := open_ok c idx hidx
      have hrec := ih (idx + 1) { c with pins := c.pins.set idx true }
        (by simpa using hlen)
        (fun p hp => by simpa using hdom (p + 1) (by simpa using hp))
        (by simp at hrange ⊢; omega)
      rcases hrec with ⟨c', heq, hpins', hnum', hlen', hset', hframe'⟩
      refine ⟨c', ?_, by simpa using hpins', by simpa using hnum',
        by simpa using hlen', ?_, ?_⟩
      · rw [apply_config, if_neg (by decide), if_pos rfl, hstep]
        exact heq
      · intro p hp
        match p with
        | 0 =>
          have := hframe' idx (Or.inl (Nat.lt_succ_self idx))
          rw [Nat.add_zero, this, getD_set_self _ _ _ _ (by omega)]
          simp
        | Nat.succ q =>
          have hq : q < rest.length := by simpa using hp
          have := hset' q hq
          rw [show idx + (q + 1) = idx + 1 + q by omega, this]
          simp [List.getD]
      · intro j hj
        have hj' : j < idx + 1 ∨ idx + 1 + rest.length ≤ j := by
          rcases hj with hj | hj
          · exact Or.inl (by omega)
          · right
            have : idx + (rest.length + 1) ≤ j := by simpa using hj
            omega
        have hne : idx ≠ j := by
          rcases hj with hj | hj
          · omega
          · have : idx + (rest.length + 1) ≤ j := by simpa using hj
            omega
        rw [hframe' j hj', getD_set_ne _ _ _ _ _ hne]
    · -- entry 1: close the relay
      subst hv
      have hstep := close_ok c idx hidx
      have hrec := ih (idx + 1) { c with pins := c.pins.set idx false }
        (by simpa using hlen)
        (fun p hp => by simpa using hdom (p + 1) (by simpa using hp))
        (by simp at hrange ⊢; omega)
      rcases hrec with ⟨c', heq, hpins', hnum', hlen', hset', hframe'⟩
      refine ⟨c', ?_, by simpa using hpins', by simpa using hnum',
        by simpa using hlen', ?_, ?_⟩
      · rw [apply_config, if_pos rfl, hstep]
        exact heq
      · intro p hp
        match p with
        | 0 =>
          have := hframe' idx (Or.inl (Nat.lt_succ_self idx))
          rw [Nat.add_zero, this, getD_set_self _ _ _ _ (by omega)]
          simp
        | Nat.succ q =>
          have hq : q < rest.length := by simpa using hp
          have := hset' q hq
          rw [show idx + (q + 1) = idx + 1 + q by omega, this]
          simp [List.getD]
      · intro j hj
        have hj' : j < idx + 1 ∨ idx + 1 + rest.length ≤ j := by
          rcases hj with hj | hj
          · exact Or.inl (by omega)
          · right
            have : idx + (rest.length + 1) ≤ j := by simpa using hj
            omega
        have hne : idx ≠ j := by
          rcases hj with hj | hj
          · omega
          · have : idx + (rest.length + 1) ≤ j := by simpa using hj
            omega
        rw [hframe' j hj', getD_set_ne _ _ _ _ _ hne]

/-- Full characterisation of a failing run of the `set_state` loop: the
entries before position `k` are in `{0,1}` and touch in-range relays, and the
step at `k` fails, either because entry `k` is outside `{0,1}` (the loop's own
`ValueError`, raised before any hardware call for that index) or because entry
`k` is valid but index `idx + k` is out of range (`close`/`open` validation).
The loop stops with the corresponding error; relays before `k` hold the newly
applied values and relays from `k` on are untouched. -/
theorem apply_config_fail (config : List Int) : ∀ (idx k : Nat) (c : RelayController),
    c.pins.length = c.num_relays →
    k < config.length →
    (∀ p, p < k → config.getD p 0 = 0 ∨ config.getD p 0 = 1) →
    idx + k ≤ c.num_relays →
    (¬(config.getD k 0 = 0 ∨ config.getD k 0 = 1) ∨ c.num_relays ≤ idx + k) →
    ∃ c', c.apply_config config idx =
        (Except.error (if config.getD k 0 = 0 ∨ config.getD k 0 = 1
          then PyError.relayNumberOutOfRange c.num_relays
          else PyError.invalidRelayState (config.getD k 0) (idx + k)), c') ∧
      c'.relay_pins = c.relay_pins ∧ c'.num_relays = c.num_relays ∧
      c'.pins.length = c.pins.length ∧
      (∀ p, p < k → c'.pins.getD (idx + p) false = decide (config.getD p 0 = 0)) ∧
      (∀ j, j < idx ∨ idx + k ≤ j → c'.pins.getD j false = c.pins.getD j false) := by
  induction config with
  | nil =>
    intro idx k c _ hk _ _ _
    exact absurd hk (Nat.not_lt_zero k)
  | cons v rest ih =>
    intro idx k c hlen hk hpre hrange hfail
    match k with
    | 0 =>
      have hgd0 : (v :: rest).getD 0 0 = v := by simp [List.getD]
      rw [hgd0, Nat.add_zero] at hfail ⊢
      by_cases hv : v = 0 ∨ v = 1
      · have hN : c.num_relays ≤ idx := Or.resolve_left hfail (not_not_intro hv)
        have hval : c._validate_relay_number (idx : Int) =
            Except.error (PyError.relayNumberOutOfRange c.num_relays) := by
          rw [_validate_relay_number, if_neg]
          intro h
          exact absurd h.2 (by exact_mod_cast Nat.not_lt.mpr hN)
        rw [if_pos hv]
        rcases hv with hv | hv
        · subst hv
          refine ⟨c, ?_, rfl, rfl, rfl, fun p hp => absurd hp (Nat.not_lt_zero p),
            fun j _ => rfl⟩
          rw [apply_config, if_neg (by decide), if_pos rfl, «open», hval]
        · subst hv
          refine ⟨c, ?_, rfl, rfl, rfl, fun p hp => absurd hp (Nat.not_lt_zero p),
            fun j _ => rfl⟩
          rw [apply_config, if_pos rfl, close, hval]
      · rw [if_neg hv]
        refine ⟨c, ?_, rfl, rfl, rfl, fun p hp => absurd hp (Nat.not_lt_zero p),
          fun j _ => rfl⟩
        rw [apply_config, if_neg (fun h => hv (Or.inr h)),
          if_neg (fun h => hv (Or.inl h))]
    | Nat.succ k' =>
      have hidx : idx < c.num_relays := by omega
      have hv : v = 0 ∨ v = 1 := by
        have := hpre 0 (Nat.succ_pos k')
        simpa [List.getD] using this
      have hgd : (v :: rest).getD (k' + 1) 0 = rest.getD k' 0 := by simp [List.getD]
      have harith : idx + (k' + 1) = idx + 1 + k' := by omega
      rw [hgd, harith] at hfail ⊢
      have hk' : k' < rest.length := by simpa using hk
      have hpre' : ∀ p, p < k' → rest.getD p 0 = 0 ∨ rest.getD p 0 = 1 := by
        intro p hp
        have := hpre (p + 1) (by omega)
        simpa [List.getD] using this
      rcases hv with hv | hv
      · subst hv
        have hstep := open_ok c idx hidx
        have hrec := ih (idx + 1) k' { c with pins := c.pins.set idx true }
          (by simpa using hlen) hk' hpre' (by simp; omega) (by simpa using hfail)
        rcases hrec with ⟨c', heq, hpins', hnum', hlen', hset', hframe'⟩
        refine ⟨c', ?_, by simpa using hpins', by simpa using hnum',
          by simpa using hlen', ?_, ?_⟩
        · rw [apply_config, if_neg (by decide), if_pos rfl, hstep]
          exact heq
        · intro p hp
          match p with
          | 0 =>
            have := hframe' idx (Or.inl (Nat.lt_succ_self idx))
            rw [Nat.add_zero, this, getD_set_self _ _ _ _ (by omega)]
            simp
          | Nat.succ q =>
            have hq : q < k' := by omega
            have := hset' q hq
            rw [show idx + (q + 1) = idx + 1 + q by omega, this]
            simp [List.getD]
        · intro j hj
          have hj' : j < idx + 1 ∨ idx + 1 + k' ≤ j := by
            rcases hj with hj | hj
            · exact Or.inl (by omega)
            · right; omega
          have hne : idx ≠ j := by
            rcases hj with hj | hj <;> omega
          rw [hframe' j hj', getD_set_ne _ _ _ _ _ hne]
      · subst hv
        have hstep := close_ok c idx hidx
        have hrec := ih (idx + 1) k' { c with pins := c.pins.set idx false }
          (by simpa using hlen) hk' hpre' (by simp; omega) (by simpa using hfail)
        rcases hrec with ⟨c', heq, hpins', hnum', hlen', hset', hframe'⟩
        refine ⟨c', ?_, by simpa using hpins', by simpa using hnum',
          by simpa using hlen', ?_, ?_⟩
        · rw [apply_config, if_pos rfl, hstep]
          exact heq
        · intro p hp
          match p with
          | 0 =>
            have := hframe' idx (Or.inl (Nat.lt_succ_self idx))
            rw [Nat.add_zero, this, getD_set_self _ _ _ _ (by omega)]
            simp
          | Nat.succ q =>
            have hq : q < k' := by omega
            have := hset' q hq
            rw [show idx + (q + 1) = idx + 1 + q by omega, this]
            simp [List.getD]
        · intro j hj
          have hj' : j < idx + 1 ∨ idx + 1 + k' ≤ j := by
            rcases hj with hj | hj
            · exact Or.inl (by omega)
            · right; omega
          have hne : idx ≠ j := by
            rcases hj with hj | hj <;> omega
          rw [hframe' j hj', getD_set_ne _ _ _ _ _ hne]

end RelayController

/-- Evaluating `get_state` at an in-range `Nat` index: it returns the negation
of the recorded lit level. -/
theorem RelayController.get_state_ok (c : RelayController) (i : Nat)
    (h : i < c.num_relays) :
    c.get_state (i : Int) = Except.ok (!(c.pins.getD i false)) := by
  rw [RelayController.get_state, RelayController.validate_ok c i h]
  simp

namespace CapRelay

/-- A successful `set_state`: when the name resolves to a vector `V` whose
entries are all in `{0,1}` and which is no longer than the bank, the call
succeeds (returning Python's `None`), sets `current_state` to the lowercased
name, leaves every other field alone, drives pin `p` lit exactly when
`V[p] = 0`, and leaves pins beyond `V` untouched. -/
theorem set_state_ok (c : CapRelay) (state_name : String) (V : List Int)
    (hmap : c.config_of state_name = some V)
    (hlen : c.pins.length = c.num_relays)
    (hdom : ∀ p, p < V.length → V.getD p 0 = 0 ∨ V.getD p 0 = 1)
    (hVlen : V.length ≤ c.num_relays) :
    ∃ c', c.set_state state_name = (Except.ok none, c') ∧
      c'.current_state = pyLower state_name ∧
      c'.relay_pins = c.relay_pins ∧ c'.num_relays = c.num_relays ∧
      c'.pins.length = c.pins.length ∧
      c'.chg_config = c.chg_config ∧ c'.dmp_config = c.dmp_config ∧
      c'.null_state = c.null_state ∧
      (∀ p, p < V.length → c'.pins.getD p false = decide (V.getD p 0 = 0)) ∧
      (∀ j, V.length ≤ j → c'.pins.getD j false = c.pins.getD j false) := by
  obtain ⟨rc', heq, h1, h2, h3, h4, h5⟩ :=
    RelayController.apply_config_ok V 0 c.toRelayController hlen hdom
      (by simpa using hVlen)
  refine ⟨{ c with toRelayController := rc', current_state := pyLower state_name },
    ?_, rfl, h1, h2, h3, rfl, rfl, rfl, ?_, ?_⟩
  · simp only [set_state, hmap, heq]
  · intro p hp
    simpa using h4 p hp
  · intro j hj
    exact h5 j (Or.inr (by omega))

/-- A `set_state` that fails at position `k` of the resolved vector `V`
(entries before `k` are valid and in range; entry `k` is either outside
`{0,1}` or addresses an out-of-range relay): the error propagates,
`current_state` keeps its previous value, pins before `k` hold the newly
applied values and pins from `k` on are untouched. -/
theorem set_state_fail (c : CapRelay) (state_name : String) (V : List Int) (k : Nat)
    (hmap : c.config_of state_name = some V)
    (hlen : c.pins.length = c.num_relays)
    (hk : k < V.length)
    (hpre : ∀ p, p < k → V.getD p 0 = 0 ∨ V.getD p 0 = 1)
    (hkN : k ≤ c.num_relays)
    (hfail : ¬(V.getD k 0 = 0 ∨ V.getD k 0 = 1) ∨ c.num_relays ≤ k) :
    ∃ c', c.set_state state_name =
        (Except.error (if V.getD k 0 = 0 ∨ V.getD k 0 = 1
          then PyError.relayNumberOutOfRange c.num_relays
          else PyError.invalidRelayState (V.getD k 0) k), c') ∧
      c'.current_state = c.current_state ∧
      c'.relay_pins = c.relay_pins ∧ c'.num_relays = c.num_relays ∧
      c'.pins.length = c.pins.length ∧
      (∀ p, p < k → c'.pins.getD p false = decide (V.getD p 0 = 0)) ∧
      (∀ j, k ≤ j → c'.pins.getD j false = c.pins.getD j false) := by
  obtain ⟨rc', heq, h1, h2, h3, h4, h5⟩ :=
    RelayController.apply_config_fail V 0 k c.toRelayController hlen hk hpre
      (by simpa using hkN) (by simpa using hfail)
  rw [Nat.zero_add] at heq
  refine ⟨{ c with toRelayController := rc' }, ?_, rfl, h1, h2, h3, ?_, ?_⟩
  · simp only [set_state, hmap, heq]
  · intro p hp
    simpa using h4 p hp
  · intro j hj
    exact h5 j (Or.inr (by omega))

/-- A successful construction: with consistent lengths (and no condition at
all on the entry values), `CapRelay.__init__` succeeds and yields the
controller in the `"null"` state with every relay pin lit (open). -/
theorem init_ok (relay_pins chg dmp : List Int)
    (h1 : chg.length = dmp.length) (h2 : relay_pins.length = chg.length) :
    ∃ c, CapRelay.init relay_pins chg dmp = Except.ok c ∧
      c.current_state = "null" ∧
      c.relay_pins = relay_pins ∧ c.num_relays = relay_pins.length ∧
      c.pins.length = relay_pins.length ∧
      c.chg_config = chg ∧ c.dmp_config = dmp ∧
      c.null_state = List.replicate relay_pins.length 0 ∧
      (∀ i, i < relay_pins.length → c.pins.getD i false = true) := by
  set c₀ : CapRelay :=
    { toRelayController := RelayController.init relay_pins
      chg_config := chg
      dmp_config := dmp
      current_state := "null"
      null_state := List.replicate relay_pins.length 0 } with hc₀
  have hnum : c₀.num_relays = relay_pins.length := by
    simp [hc₀, RelayController.init, RelayController.open_all]
  have hplen : c₀.pins.length = relay_pins.length := by
    simp [hc₀, RelayController.init, RelayController.open_all]
  have hmap : c₀.config_of "null" = some (List.replicate relay_pins.length 0) := by
    rw [config_of, if_neg (by decide), if_neg (by decide), if_pos (by decide)]
  obtain ⟨c', heq, hcur, hrp, hnum', hlen', hchg', hdmp', hnull', hset, _⟩ :=
    set_state_ok c₀ "null" (List.replicate relay_pins.length 0) hmap
      (by rw [hplen, hnum])
      (fun p hp => Or.inl (getD_replicate 0 0 (by simpa using hp)))
      (Nat.le_of_eq (by rw [List.length_replicate, hnum]))
  refine ⟨c', ?_, by rw [hcur]; decide, ?_, ?_, ?_, by rw [hchg'], by rw [hdmp'],
    by rw [hnull'], ?_⟩
  · rw [CapRelay.init, if_neg (by omega), if_neg (by omega), ← hc₀]
    simp only [heq]
  · rw [hrp]
    simp [hc₀, RelayController.init, RelayController.open_all]
  · rw [hnum', hnum]
  · rw [hlen', hplen]
  · intro i hi
    have := hset i (by simpa using hi)
    rw [this, getD_replicate 0 0 (by simpa using hi)]
    decide

end CapRelay

/-- C1: for every configuration vector `V` of length `N` with every entry in
`{0,1}`, after a call to `set_state(name)` that maps to `V` completes without
error, `get_state(i)` equals `V[i] == 1` for every index `i` in `[0,N)`. -/
theorem set_state_realises_config (c c' : CapRelay) (state_name : String)
    (V : List Int) (r : Option StateInfo)
    (hmap : c.config_of state_name = some V)
    (hVlen : V.length = c.num_relays)
    (hdom : ∀ v ∈ V, v = 0 ∨ v = 1)
    (hlen : c.pins.length = c.num_relays)
    (hok : c.set_state state_name = (Except.ok r, c')) :
    ∀ i, i < c.num_relays →
      c'.get_state (i : Int) = Except.ok (decide (V.getD i 0 = 1)) := by
  have hdom' : ∀ p, p < V.length → V.getD p 0 = 0 ∨ V.getD p 0 = 1 := by
    intro p hp
    rw [List.getD_eq_getElem V 0 hp]
    exact hdom _ (List.getElem_mem hp)
  obtain ⟨c'', heq, -, -, hnum, -, -, -, -, hset, -⟩ :=
    CapRelay.set_state_ok c state_name V hmap hlen hdom' (Nat.le_of_eq hVlen)
  rw [heq] at hok
  injection hok with h1 h2
  subst h2
  intro i hi
  have hi' : i < V.length := by omega
  have hg := RelayController.get_state_ok c''.toRelayController i
    (by rw [hnum]; exact hi)
  rw [CapRelay.get_state, hg, hset i hi']
  rcases hdom' i hi' with h | h <;> rw [h] <;> decide

/-- C1 witness: in the `src/test.py` scenario, `set_state("charge")` maps to
`[1,1,0,0]` and afterwards relay 0 reads closed. -/
theorem set_state_realises_config_witness :
    demoRelay.set_state "charge" = (Except.ok none, demoCharge) ∧
    demoCharge.get_state ((0 : Nat) : Int) =
      Except.ok (decide (([1, 1, 0, 0] : List Int).getD 0 0 = 1)) :=
  ⟨by decide,
    set_state_realises_config demoRelay demoCharge "charge" [1, 1, 0, 0] none
      (by decide) (by decide) (by decide) (by decide) (by decide) 0 (by decide)⟩

/-- C2: `get_state_info` never succeeds on any constructed controller — the
`"configuration"` entry calls `get_state_config`, which is defined nowhere in
the repository, so the call raises `AttributeError` instead of returning a
snapshot. -/
theorem get_state_info_raises_attribute_error (c : CapRelay) :
    c.get_state_info = Except.error (PyError.attributeError "get_state_config") :=
  rfl

/-- C7: a name that matches no configuration after lowercasing makes
`set_state` raise `ValueError` (`Invalid state`), leaving the controller —
`current_state` and every pin — exactly as it was. -/
theorem set_state_unknown_name (c : CapRelay) (state_name : String)
    (h1 : pyLower state_name ≠ "charge")
    (h2 : pyLower state_name ≠ "dump")
    (h3 : pyLower state_name ≠ "null") :
    c.set_state state_name = (Except.error (PyError.invalidState state_name), c) := by
  rw [CapRelay.set_state, CapRelay.config_of, if_neg h1, if_neg h2, if_neg h3]

/-- C7 witness: `set_state("bogus")` on the `src/test.py` controller. -/
theorem set_state_unknown_name_witness :
    demoRelay.set_state "bogus" =
      (Except.error (PyError.invalidState "bogus"), demoRelay) :=
  set_state_unknown_name demoRelay "bogus" (by decide) (by decide) (by decide)

/-- C8: for an index outside `[0,N)`, `close`, `open` and `get_state` all
raise the range `ValueError`, and since `_validate_relay_number` runs before
any board access, the post-state is exactly the pre-state: no hardware output
is changed. -/
theorem out_of_range_checked_before_hardware (c : RelayController) (i : Int)
    (h : ¬(0 ≤ i ∧ i < (c.num_relays : Int))) :
    c.close i = (Except.error (PyError.relayNumberOutOfRange c.num_relays), c) ∧
    c.«open» i = (Except.error (PyError.relayNumberOutOfRange c.num_relays), c) ∧
    c.get_state i = Except.error (PyError.relayNumberOutOfRange c.num_relays) := by
  have hv : c._validate_relay_number i =
      Except.error (PyError.relayNumberOutOfRange c.num_relays) := by
    rw [RelayController._validate_relay_number, if_neg h]
  refine ⟨?_, ?_, ?_⟩
  · rw [RelayController.close, hv]
  · rw [RelayController.«open», hv]
  · rw [RelayController.get_state, hv]

/-- C8 witness: `open(-1)` (and `close(-1)`, `get_state(-1)`) on a fresh
four-relay bank raise the range error and leave the bank untouched. -/
theorem out_of_range_checked_before_hardware_witness :
    RelayController.close (RelayController.init [22, 23, 24, 25]) (-1) =
      (Except.error (PyError.relayNumberOutOfRange
        (RelayController.init [22, 23, 24, 25]).num_relays),
       RelayController.init [22, 23, 24, 25]) ∧
    RelayController.«open» (RelayController.init [22, 23, 24, 25]) (-1) =
      (Except.error (PyError.relayNumberOutOfRange
        (RelayController.init [22, 23, 24, 25]).num_relays),
       RelayController.init [22, 23, 24, 25]) ∧
    RelayController.get_state (RelayController.init [22, 23, 24, 25]) (-1) =
      Except.error (PyError.relayNumberOutOfRange
        (RelayController.init [22, 23, 24, 25]).num_relays) :=
  out_of_range_checked_before_hardware (RelayController.init [22, 23, 24, 25])
    (-1) (by decide)

/-- C3 counterexample: the charge vector `[2,0]` carries the out-of-domain
entry `2` at position 0, yet construction succeeds — no `ConfigurationError`
(`ValueError`) is raised at construction for out-of-domain entries. -/
theorem init_accepts_out_of_domain_entry :
    CapRelay.init [22, 23] [2, 0] [0, 0] =
      Except.ok
        { relay_pins := [22, 23]
          num_relays := 2
          pins := [true, true]
          chg_config := [2, 0]
          dmp_config := [0, 0]
          current_state := "null"
          null_state := [0, 0] } := by
  decide

/-- C3 amended: construction validates only the two length conditions, never
the entry domain — with consistent lengths it succeeds whatever the entries
are — and an entry outside `{0,1}` is reported only when a later `set_state`
applies that vector, by a `ValueError` naming the value and the offending
position. -/
theorem entry_validation_deferred_to_set_state (relay_pins chg dmp : List Int)
    (h1 : chg.length = dmp.length) (h2 : relay_pins.length = chg.length)
    (k : Nat) (hk : k < chg.length)
    (hbad : ¬(chg.getD k 0 = 0 ∨ chg.getD k 0 = 1))
    (hpre : ∀ p, p < k → chg.getD p 0 = 0 ∨ chg.getD p 0 = 1) :
    ∃ c, CapRelay.init relay_pins chg dmp = Except.ok c ∧
      ∃ c', c.set_state "charge" =
        (Except.error (PyError.invalidRelayState (chg.getD k 0) k), c') := by
  obtain ⟨c, hinit, -, -, hnum, hplen, hchg, -, -, -⟩ :=
    CapRelay.init_ok relay_pins chg dmp h1 h2
  refine ⟨c, hinit, ?_⟩
  have hmap : c.config_of "charge" = some chg := by
    rw [CapRelay.config_of, if_pos (by decide), hchg]
  obtain ⟨c', heq, -⟩ := CapRelay.set_state_fail c "charge" chg k hmap
    (by rw [hplen, hnum]) hk hpre (by omega) (Or.inl hbad)
  rw [if_neg hbad] at heq
  exact ⟨c', heq⟩

/-- C3 witness: `CapRelay([22,23], [2,0], [0,0])` constructs fine, and the
first `set_state("charge")` raises naming value 2 at position 0. -/
theorem entry_validation_deferred_to_set_state_witness :
    ∃ c, CapRelay.init [22, 23] [2, 0] [0, 0] = Except.ok c ∧
      ∃ c', c.set_state "charge" =
        (Except.error (PyError.invalidRelayState 2 0), c') :=
  entry_validation_deferred_to_set_state [22, 23] [2, 0] [0, 0]
    (by decide) (by decide) 0 (by decide) (by decide)
    (fun p hp => absurd hp (Nat.not_lt_zero p))

/-- C4 counterexample: in the `src/test.py` scenario a successful
`set_state("charge")` returns Python's `None` (the `none` in the result slot),
not a `StateSnapshot`; only `current_state` is updated. -/
theorem set_state_returns_python_none :
    demoRelay.set_state "charge" = (Except.ok none, demoCharge) := by
  decide

/-- C4 amended: when all per-relay operations succeed, `set_state` updates
`current_state` to the lowercased name — but it returns `None` rather than
any snapshot of the configuration, relay read-back or pin list. -/
theorem set_state_success_updates_label (c c' : CapRelay) (state_name : String)
    (r : Option StateInfo)
    (h : c.set_state state_name = (Except.ok r, c')) :
    r = none ∧ c'.current_state = pyLower state_name := by
  rw [CapRelay.set_state] at h
  split at h
  · simp at h
  · split at h
    · simp at h
    · injection h with h1 h2
      injection h1 with h1
      subst h2
      exact ⟨h1.symm, rfl⟩

/-- C4 witness: `set_state("CHARGE")` on the `src/test.py` controller
normalizes the name and returns `None`. -/
theorem set_state_success_updates_label_witness :
    (none : Option StateInfo) = none ∧
    demoCharge.current_state = pyLower "CHARGE" :=
  set_state_success_updates_label demoRelay demoCharge "CHARGE" none (by decide)

/-- C5: if the per-relay operation at index `k` of a `set_state` fails —
entry `k` outside `{0,1}`, or entry `k` valid but addressing an out-of-range
relay — then the error propagates, `current_state` keeps its previous value,
relays below `k` hold the newly applied values and relays at or above `k` are
untouched (no rollback). -/
theorem set_state_partial_failure (c : CapRelay) (state_name : String)
    (V : List Int) (k : Nat)
    (hmap : c.config_of state_name = some V)
    (hlen : c.pins.length = c.num_relays)
    (hk : k < V.length)
    (hpre : ∀ p, p < k → V.getD p 0 = 0 ∨ V.getD p 0 = 1)
    (hkN : k ≤ c.num_relays)
    (hfail : ¬(V.getD k 0 = 0 ∨ V.getD k 0 = 1) ∨ c.num_relays ≤ k) :
    ∃ e c', c.set_state state_name = (Except.error e, c') ∧
      c'.current_state = c.current_state ∧
      (∀ j, j < k → c'.get_state (j : Int) = Except.ok (decide (V.getD j 0 = 1))) ∧
      (∀ j, k ≤ j → c'.pins.getD j false = c.pins.getD j false) := by
  obtain ⟨c', heq, hcur, -, hnum, -, hset, hframe⟩ :=
    CapRelay.set_state_fail c state_name V k hmap hlen hk hpre hkN hfail
  refine ⟨_, c', heq, hcur, ?_, hframe⟩
  intro j hj
  have hg := RelayController.get_state_ok c'.toRelayController j
    (by rw [hnum]; omega)
  rw [CapRelay.get_state, hg, hset j hj]
  rcases hpre j hj with h | h <;> rw [h] <;> decide

/-- C5 witness: applying the bad charge vector `[1,2]` closes relay 0, then
fails at position 1; `current_state` stays `"null"` and relay 1 keeps its
pre-call level. -/
theorem set_state_partial_failure_witness :
    ∃ e c', badChargeRelay.set_state "charge" = (Except.error e, c') ∧
      c'.current_state = badChargeRelay.current_state ∧
      (∀ j : Nat, j < 1 → c'.get_state (j : Int) =
        Except.ok (decide (([1, 2] : List Int).getD j 0 = 1))) ∧
      (∀ j : Nat, 1 ≤ j →
        c'.pins.getD j false = badChargeRelay.pins.getD j false) :=
  set_state_partial_failure badChargeRelay "charge" [1, 2] 1
    (by decide) (by decide) (by decide)
    (fun p hp => by
      have hp0 : p = 0 := by omega
      subst hp0
      exact Or.inr (by decide))
    (by decide) (Or.inl (by decide))

/-- C6: for every `N ≥ 0` and consistent configuration vectors with entries
in `{0,1}`, construction succeeds and yields `current_state == "null"` with
`get_state(i) == false` (open) for every `i` in `[0,N)`. -/
theorem construction_null_all_open (relay_pins chg dmp : List Int)
    (h1 : chg.length = dmp.length) (h2 : relay_pins.length = chg.length)
    (hchg : ∀ v ∈ chg, v = 0 ∨ v = 1) (hdmp : ∀ v ∈ dmp, v = 0 ∨ v = 1) :
    ∃ c, CapRelay.init relay_pins chg dmp = Except.ok c ∧
      c.current_state = "null" ∧ c.num_relays = relay_pins.length ∧
      ∀ i, i < c.num_relays → c.get_state (i : Int) = Except.ok false := by
  obtain ⟨c, hinit, hcur, -, hnum, -, -, -, -, hlit⟩ :=
    CapRelay.init_ok relay_pins chg dmp h1 h2
  refine ⟨c, hinit, hcur, hnum, ?_⟩
  intro i hi
  have hg := RelayController.get_state_ok c.toRelayController i hi
  rw [CapRelay.get_state, hg, hlit i (by omega)]
  rfl

/-- C6 witness: the `src/test.py` construction yields the `"null"` state with
all four relays open. -/
theorem construction_null_all_open_witness :
    ∃ c, CapRelay.init [22, 23, 24, 25] [1, 1, 0, 0] [0, 0, 1, 1] = Except.ok c ∧
      c.current_state = "null" ∧ c.num_relays = 4 ∧
      ∀ i, i < c.num_relays → c.get_state (i : Int) = Except.ok false :=
  construction_null_all_open [22, 23, 24, 25] [1, 1, 0, 0] [0, 0, 1, 1]
    (by decide) (by decide) (by decide) (by decide)

/-- C9: `close_all` drives every relay closed but is a bank-level operation:
it leaves `current_state` (and the relay count) at its prior value. -/
theorem close_all_preserves_current_state (c : CapRelay) :
    c.close_all.current_state = c.current_state ∧
    c.close_all.num_relays = c.num_relays ∧
    ∀ i, i < c.num_relays → c.close_all.get_state (i : Int) = Except.ok true := by
  refine ⟨rfl, rfl, fun i hi => ?_⟩
  have hg : c.close_all.toRelayController.get_state (i : Int) =
      Except.ok (!(c.close_all.toRelayController.pins.getD i false)) :=
    RelayController.get_state_ok _ i hi
  have hpin : c.close_all.toRelayController.pins.getD i false = false := by
    simp [CapRelay.close_all, RelayController.close_all, List.getD, List.getElem?_map]
  rw [CapRelay.get_state, hg, hpin]
  rfl

/-- C9 witness: after the `src/test.py` scenario's `close_all()`, the state
label still reads `"null"` while relay 0 reads closed. -/
theorem close_all_preserves_current_state_witness :
    demoRelay.close_all.current_state = demoRelay.current_state ∧
    demoRelay.close_all.get_state ((0 : Nat) : Int) = Except.ok true :=
  ⟨(close_all_preserves_current_state demoRelay).1,
   (close_all_preserves_current_state demoRelay).2.2 0 (by decide)⟩

/-- C10: the logical relay state is the inverse of the pin's lit level:
`close(i)` drives pin `i` to the unlit/off level, `open(i)` drives it to the
lit/on level, and `get_state(i)` returns true exactly when the pin is not
lit. -/
theorem relay_polarity_inverted (c : RelayController) (i : Nat)
    (hi : i < c.num_relays) (hlen : c.pins.length = c.num_relays) :
    (∃ c₁, c.close (i : Int) = (Except.ok (), c₁) ∧
      c₁.pins.getD i false = false ∧ c₁.get_state (i : Int) = Except.ok true) ∧
    (∃ c₂, c.«open» (i : Int) = (Except.ok (), c₂) ∧
      c₂.pins.getD i false = true ∧ c₂.get_state (i : Int) = Except.ok false) ∧
    c.get_state (i : Int) = Except.ok (!(c.pins.getD i false)) := by
  have hilt : i < c.pins.length := by omega
  refine ⟨⟨_, RelayController.close_ok c i hi, ?_, ?_⟩,
    ⟨_, RelayController.open_ok c i hi, ?_, ?_⟩,
    RelayController.get_state_ok c i hi⟩
  · exact getD_set_self c.pins i false false hilt
  · have hg : ({ c with pins := c.pins.set i false } : RelayController).get_state
        (i : Int) = Except.ok (!((c.pins.set i false).getD i false)) :=
      RelayController.get_state_ok _ i hi
    rw [hg, getD_set_self c.pins i false false hilt]
    rfl
  · exact getD_set_self c.pins i true false hilt
  · have hg : ({ c with pins := c.pins.set i true } : RelayController).get_state
        (i : Int) = Except.ok (!((c.pins.set i true).getD i false)) :=
      RelayController.get_state_ok _ i hi
    rw [hg, getD_set_self c.pins i true false hilt]
    rfl

/-- C10 witness: on a fresh four-relay bank, closing relay 0 leaves its pin
unlit and reading back closed; opening leaves it lit and reading back open. -/
theorem relay_polarity_inverted_witness :
    (∃ c₁, (RelayController.init [22, 23, 24, 25]).close ((0 : Nat) : Int) =
        (Except.ok (), c₁) ∧ c₁.pins.getD 0 false = false ∧
        c₁.get_state ((0 : Nat) : Int) = Except.ok true) ∧
    (∃ c₂, (RelayController.init [22, 23, 24, 25]).«open» ((0 : Nat) : Int) =
        (Except.ok (), c₂) ∧ c₂.pins.getD 0 false = true ∧
        c₂.get_state ((0 : Nat) : Int) = Except.ok false) ∧
    (RelayController.init [22, 23, 24, 25]).get_state ((0 : Nat) : Int) =
      Except.ok (!((RelayController.init [22, 23, 24, 25]).pins.getD 0 false)) :=
  relay_polarity_inverted (RelayController.init [22, 23, 24, 25]) 0
    (by decide) (by decide)
